import Mathlib

/-!
Verification of the PolyBot fair-probability engine.

The development shallowly embeds the numerical core of the repository:

* `GBMFairProbability` (src/gbm.ts, the snappy no-smoothing variant):
  EWMA volatility estimation and the closed-form diffusion probability
  `calculate`, including the Abramowitz–Stegun style `normCDF`.
  Floating-point numbers are embedded as real numbers; `Date.now()`
  timestamps are passed explicitly.
* `FairCalculator` (src/fairCalculator.ts): the per-venue basis
  calibration step with spike freeze and divergence latch, the hybrid
  fair update with its NaN fallback, and `getCombinedExchangeFair`.
  Here all arithmetic is rational; a possibly-NaN JavaScript number is
  embedded as `Option ℚ` (`none` = NaN).  Cross-module reads
  (current/start prices, the GBM probability, the Polymarket book) are
  passed as parameters.
* `AutoTradingBot.checkMarketRollover` (src/auto_trading_bot.ts):
  the 15-minute window rollover as a state transformer.
* the per-feed reconnect backoff counters (src/priceSources/*.ts,
  src/polymarketWs.ts) as a small event-driven transition system.
* `BitfinexPerpSource.handlePrice` (src/priceSources/bitfinexPerp.ts),
  the per-tick state mutation of one venue feed.
-/

namespace PolyBot

/-- The four tracked assets (src/types.ts `AssetSymbol`). -/
inductive Asset
  | BTC
  | ETH
  | SOL
  | XRP
deriving DecidableEq

/-- The venue identifiers appearing in the repository (src/types.ts
`Exchange`, plus `COINBASE` and `BITFINEX` which the code refers to). -/
inductive Exchange
  | BINANCE
  | BYBIT
  | GATE
  | OKX
  | ASTER
  | HYPER
  | MEXC
  | BITGET
  | DEEPCOIN
  | COINBASE
  | BITFINEX
deriving DecidableEq

/-- List of the four assets, in the order the code iterates them. -/
def allAssets : List Asset := [Asset.BTC, Asset.ETH, Asset.SOL, Asset.XRP]

/-! ## GBMFairProbability (src/gbm.ts, first variant: 60 s retention, no smoothing) -/

/-- State of one `GBMFairProbability` instance: the tick history
(timestamp, price) with oldest first, the EWMA variance, the
`lastFairUp` smoothing memory, and the constructor constants. -/
structure GBMState where
  history : List (Int × ℝ)
  ewmaVariance : ℝ
  lastFairUp : Option ℝ
  LAMBDA : ℝ
  MIN_SIGMA_PER_MIN : ℝ

/-- A freshly constructed `GBMFairProbability` with the default
constructor arguments `LAMBDA = 0.983`, `MIN_SIGMA_PER_MIN = 0.0004`. -/
noncomputable def freshGBM : GBMState :=
  { history := [], ewmaVariance := 0, lastFairUp := none,
    LAMBDA := 0.983, MIN_SIGMA_PER_MIN := 0.0004 }

/-- The `while (history.length > 0 && history[0].ts < cutoff) shift()`
pruning loop of `addPrice`. -/
def pruneOld (cutoff : Int) : List (Int × ℝ) → List (Int × ℝ)
  | [] => []
  | x :: xs => if x.1 < cutoff then pruneOld cutoff xs else x :: xs

/-- `addPrice(price)` (src/gbm.ts, lines 16–34): push the tick, prune
entries older than 60 s, and if a previous tick exists with positive
prices update `ewmaVariance = Λ·ewmaVariance + (1-Λ)·r²` where
`r = ln(price / prevPrice)`. -/
noncomputable def addPrice (now : Int) (price : ℝ) (s : GBMState) : GBMState :=
  let pushed := s.history ++ [(now, price)]
  let pruned := pruneOld (now - 60 * 1000) pushed
  let ewma :=
    if 1 < pruned.length then
      let prevPrice := ((pruned.get? (pruned.length - 2)).getD (0, 0)).2
      if 0 < prevPrice ∧ 0 < price then
        let r := Real.log (price / prevPrice)
        s.LAMBDA * s.ewmaVariance + (1 - s.LAMBDA) * (r * r)
      else s.ewmaVariance
    else s.ewmaVariance
  { s with history := pruned, ewmaVariance := ewma }

/-- Sequential calls of `addPrice` at one constant price, one call per
timestamp in the list. -/
noncomputable def addPrices : List Int → ℝ → GBMState → GBMState
  | [], _, s => s
  | t :: ts, p, s => addPrices ts p (addPrice t p s)

/-- `estimateVolatilityPerMinute()` (src/gbm.ts, lines 98–103). -/
noncomputable def estimateVolatilityPerMinute (s : GBMState) : ℝ :=
  if s.ewmaVariance = 0 then s.MIN_SIGMA_PER_MIN
  else max (Real.sqrt s.ewmaVariance * Real.sqrt 60) s.MIN_SIGMA_PER_MIN

/-- `normCDF(x)` (src/gbm.ts, lines 67–96): the Abramowitz–Stegun
rational approximation of the standard normal CDF via `erf`. -/
noncomputable def normCDF (x : ℝ) : ℝ :=
  let y := x * Real.sqrt 0.5
  if y ≤ -8 then 0
  else if 8 ≤ y then 1
  else
    let z := |y|
    let t := 1 / (1 + 0.5 * z)
    let poly :=
      t *
        (1.00002368 +
          t *
            (0.37409196 +
              t *
                (0.09678418 +
                  t *
                    (-0.18628806 +
                      t *
                        (0.27886807 +
                          t *
                            (-1.13520398 +
                              t *
                                (1.48851587 +
                                  t * (-0.82215223 + t * 0.17087277))))))))
    let tau := t * Real.exp (-z * z - 1.26551223 + poly)
    let erf := if 0 ≤ y then 1 - tau else tau - 1
    0.5 * (1 + erf)

/-- `calculate(currentPrice, startPrice, minutesRemaining)`
(src/gbm.ts, lines 113–145).  Returns the updated state (`lastFairUp`
is written) together with the `{UP, DOWN}` pair. -/
noncomputable def calculate (s : GBMState)
    (currentPrice startPrice minutesRemaining : ℝ) : GBMState × ℝ × ℝ :=
  if minutesRemaining ≤ 0 ∨ currentPrice ≤ 0 ∨ startPrice ≤ 0 then
    let up : ℝ := if startPrice ≤ currentPrice then 1 else 0
    (s, up, 1 - up)
  else
    let tau := minutesRemaining
    let sigma0 := estimateVolatilityPerMinute s
    let gapRisk := 0.001 / max 0.1 (Real.sqrt tau)
    let sigma := max sigma0 gapRisk
    let d := Real.log (currentPrice / startPrice) / (sigma * Real.sqrt tau)
    let fairUp := max 0.001 (min 0.999 (normCDF d))
    ({ s with lastFairUp := some fairUp }, fairUp, 1 - fairUp)

/-! ## FairCalculator (src/fairCalculator.ts)

The calculator's own arithmetic is additions, subtractions, absolute
values and comparisons of finite doubles, embedded here as rationals.
A JavaScript number that may be NaN is embedded as `Option ℚ` with
`none` for NaN.  The values read from other modules — current/start
prices, the GBM probability, `getRecentPctChange`, the Polymarket
book mids and the stored basis — enter as parameters. -/

/-- A JavaScript float that may be NaN (`none` = NaN). -/
def JsNum : Type := Option ℚ

/-- Addition on possibly-NaN numbers: NaN propagates. -/
def jadd : JsNum → JsNum → JsNum
  | some a, some b => some (a + b)
  | _, _ => none

/-- `Math.min` on possibly-NaN numbers: NaN propagates. -/
def jmin : JsNum → JsNum → JsNum
  | some a, some b => some (min a b)
  | _, _ => none

/-- `Math.max` on possibly-NaN numbers: NaN propagates. -/
def jmax : JsNum → JsNum → JsNum
  | some a, some b => some (max a b)
  | _, _ => none

/-- JavaScript `x || 0` applied to a stored basis entry that may be
absent (`undefined`) or NaN: both fall back to 0, and `0 || 0 = 0`. -/
def basisOrZero : Option JsNum → ℚ
  | some (some b) => b
  | _ => 0

/-- Per-(asset, venue) basis-calibration state: the stored offset
(`none` = still undefined) and the latch timer (0 = unset, matching
the code's falsy check `if (!this.latchStart[symbol][exch])`). -/
structure BasisState where
  basis : Option ℚ
  latchStart : ℚ
deriving DecidableEq

/-- The external reads consumed by one iteration of the
`ACTIVE_EXCHANGES.forEach` body in `updatePerExchangeFairs`
(src/fairCalculator.ts, lines 66–133): the venue's current and start
price, the GBM probability `fairUp`, the Polymarket UP mid `polyUp`,
`getRecentPctChange(500)` and the wall-clock `now`. -/
structure ExchangeTickInput where
  currentPrice : ℚ
  startPrice : ℚ
  fairUp : ℚ
  polyUp : ℚ
  recentPct : ℚ
  now : ℚ
deriving DecidableEq

/-- One iteration of the `ACTIVE_EXCHANGES.forEach` body of
`updatePerExchangeFairs` for a single (asset, venue) pair: basis
initialization, spike freeze, convergence snap, divergence latch with
3000 ms timeout, and the clamped published per-venue fair.  Returns
the new `BasisState` together with the value written to
`fairByExchange`. -/
def updateExchangeFairStep (st : BasisState) (i : ExchangeTickInput) :
    BasisState × ℚ :=
  if i.currentPrice ≤ 0 ∨ i.startPrice ≤ 0 then (st, 1 / 2)
  else
    let isSpike := 0.035 < |i.recentPct|
    let st1 :=
      if 0 < i.polyUp then
        let b0 :=
          match st.basis with
          | none => i.polyUp - i.fairUp
          | some b => b
        if isSpike then { basis := some b0, latchStart := 0 }
        else
          let projectedFair := i.fairUp + b0
          let diff := |projectedFair - i.polyUp|
          let rawDiff := |i.fairUp - i.polyUp|
          if diff < 0.005 ∨ rawDiff < 0.005 then
            { basis := some (i.polyUp - i.fairUp), latchStart := 0 }
          else
            let ls := if st.latchStart = 0 then i.now else st.latchStart
            if 3000 < i.now - ls then
              { basis := some (i.polyUp - i.fairUp), latchStart := 0 }
            else { basis := some b0, latchStart := ls }
      else st
    let currentBasis := st1.basis.getD 0
    let calibrated := i.fairUp + currentBasis
    (st1, max 0.001 (min 0.999 calibrated))

/-- A sequence of recompute cycles for one (asset, venue) pair. -/
def runCalibration (st : BasisState) : List ExchangeTickInput → BasisState
  | [] => st
  | i :: is => runCalibration (updateExchangeFairStep st i).1 is

/-- `updateHybridFair` (src/fairCalculator.ts, lines 136–174) after the
anchor-venue selection: guards on prices, start time, minutes left and
both book mids; then `clampedUp = max(0.001, min(0.999, gbmUp + basis))`
is published, and if it is NaN the published UP is replaced by
`polyUp || 0.5` with DOWN recomputed as its complement.  `prev` is the
previous published pair, kept on any early return. -/
def updateHybridFair (currentPrice startPrice marketStartTime now : ℚ)
    (gbmUp : JsNum) (basisEntry : Option JsNum) (polyUp polyDown : ℚ)
    (prev : ℚ × ℚ) : ℚ × ℚ :=
  if currentPrice ≤ 0 ∨ startPrice ≤ 0 ∨ marketStartTime ≤ 0 then prev
  else if (marketStartTime + 900000 - now) / 60000 ≤ 0 then prev
  else if polyUp ≤ 0 ∨ polyDown ≤ 0 then prev
  else
    let currentBasis := basisOrZero basisEntry
    let hybridUp := jadd gbmUp (some currentBasis)
    let clampedUp := jmax (some 0.001) (jmin (some 0.999) hybridUp)
    match clampedUp with
    | some v => (v, 1 - v)
    | none =>
      let fallbackUp := if polyUp = 0 then 1 / 2 else polyUp
      (fallbackUp, 1 - fallbackUp)

/-- The venue filter and validity filter of `getCombinedExchangeFair`
(src/fairCalculator.ts, lines 177–180): drop the anchor venue and the
hard-coded `DEEPCOIN`, `COINBASE`, `BINANCE` entries, then keep only
values strictly between 0 and 1. -/
def combinedValues (anchor : Exchange) (fairByExchange : List (Exchange × ℚ)) :
    List ℚ :=
  ((fairByExchange.filter fun e =>
      decide (e.1 ≠ anchor ∧ e.1 ≠ Exchange.DEEPCOIN ∧
        e.1 ≠ Exchange.COINBASE ∧ e.1 ≠ Exchange.BINANCE)).map
    Prod.snd).filter fun v => decide (0 < v ∧ v < 1)

/-- `getCombinedExchangeFair` (src/fairCalculator.ts, lines 176–196):
average the surviving per-venue values; with no survivors fall back to
`polyMid || 0.5`; with survivors but a non-positive mid return the raw
average; otherwise clamp the average to [0.001, 0.999]. -/
def getCombinedExchangeFair (anchor : Exchange)
    (fairByExchange : List (Exchange × ℚ)) (polyMid : ℚ) : ℚ :=
  let values := combinedValues anchor fairByExchange
  if values.length = 0 then (if polyMid = 0 then 1 / 2 else polyMid)
  else
    let rawAvg := values.sum / (values.length : ℚ)
    if polyMid = 0 ∨ polyMid ≤ 0 then rawAvg
    else max 0.001 (min 0.999 rawAvg)

/-! ## Market rollover (src/auto_trading_bot.ts, `checkMarketRollover`) -/

/-- The slice of `AutoTradingBot` state read and written by
`checkMarketRollover`: central start times and prices, the per-venue
synced start prices, and the published fair probabilities. -/
structure RolloverState where
  startTimes : Asset → ℚ
  startPrices : Asset → ℚ
  venueStartPrices : Exchange → Asset → ℚ
  fairProbs : Asset → ℚ × ℚ

/-- The venues whose start-price records step 2 of the rollover syncs
(bybit, gate, okx, mexc, bitget, coinbase). -/
def syncVenues : List Exchange :=
  [Exchange.BYBIT, Exchange.GATE, Exchange.OKX, Exchange.MEXC,
    Exchange.BITGET, Exchange.COINBASE]

/-- Step 2 of the rollover for one asset: take the freshly discovered
start time and price (overridden by the anchor venue's current price
when the anchor is not Binance and that price is positive) and, when
both are positive, write them into the central and per-venue state. -/
def rolloverUpdateAsset (anchor : Exchange)
    (finderStartTime finderStartPrice currentAnchorPrice : Asset → ℚ)
    (st : RolloverState) (a : Asset) : RolloverState :=
  let newStartTime := finderStartTime a
  let p0 := finderStartPrice a
  let newStartPrice :=
    if anchor ≠ Exchange.BINANCE ∧ 0 < currentAnchorPrice a then
      currentAnchorPrice a
    else p0
  if 0 < newStartTime ∧ 0 < newStartPrice then
    { st with
      startTimes := fun b => if b = a then newStartTime else st.startTimes b,
      startPrices := fun b => if b = a then newStartPrice else st.startPrices b,
      venueStartPrices := fun ex b =>
        if ex ∈ syncVenues ∧ b = a then newStartPrice
        else st.venueStartPrices ex b }
  else st

/-- `checkMarketRollover` (src/auto_trading_bot.ts, lines 471–563):
find expired assets (15 min plus the 2000 ms grace past the start
time); if none, do nothing; otherwise re-discover, sync start state
for all four assets, and finally reset every published fair pair to
`{0.5, 0.5}`.  Token resubscription and the order-book reconnect
touch no state modelled here. -/
def checkMarketRollover (now : ℚ) (anchor : Exchange)
    (finderStartTime finderStartPrice currentAnchorPrice : Asset → ℚ)
    (st : RolloverState) : RolloverState :=
  let expired := allAssets.filter fun a =>
    decide (0 < st.startTimes a ∧ st.startTimes a + 900000 + 2000 < now)
  if expired.isEmpty then st
  else
    let st1 := allAssets.foldl
      (rolloverUpdateAsset anchor finderStartTime finderStartPrice
        currentAnchorPrice) st
    { st1 with fairProbs := fun _ => (1 / 2, 1 / 2) }

/-! ## Reconnect backoff (src/priceSources/*.ts and src/polymarketWs.ts) -/

/-- Connection-level events of one feed's reconnect loop. -/
inductive FeedEvent
  | opened
  | closed
deriving DecidableEq

/-- Delay scheduled by every exchange feed's close handler:
`Math.min(1000 * ++reconnectAttempts, 10000)` with `attempt` the
just-incremented counter. -/
def exchangeReconnectDelay (attempt : ℕ) : ℕ := min (1000 * attempt) 10000

/-- Delay scheduled by the Polymarket order-book feed's close handler:
`Math.min(1000 * ++reconnectAttempts, 8000)`. -/
def polymarketReconnectDelay (attempt : ℕ) : ℕ := min (1000 * attempt) 8000

/-- One reconnect-loop event: `opened` resets the attempt counter to 0;
`closed` pre-increments it and schedules the corresponding delay. -/
def feedStep (delay : ℕ → ℕ) (c : ℕ) : FeedEvent → ℕ × Option ℕ
  | FeedEvent.opened => (0, none)
  | FeedEvent.closed => (c + 1, some (delay (c + 1)))

/-- Run a feed's reconnect loop over an event list, returning the final
counter and the list of scheduled delays in order. -/
def feedRun (delay : ℕ → ℕ) (c : ℕ) : List FeedEvent → ℕ × List ℕ
  | [] => (c, [])
  | e :: es =>
    let s := feedStep delay c e
    let r := feedRun delay s.1 es
    (r.1, s.2.toList ++ r.2)

/-! ## BitfinexPerpSource.handlePrice (src/priceSources/bitfinexPerp.ts) -/

/-- The per-venue shared state of `BitfinexPerpSource`: latest prices,
per-asset scalar start prices, the `bitfinexStartPrices` record, the
per-asset start times, and the venue's per-asset GBM models. -/
structure BitfinexPerpState where
  btcPrice : ℝ
  ethPrice : ℝ
  solPrice : ℝ
  xrpPrice : ℝ
  btcStartPrice : ℝ
  ethStartPrice : ℝ
  solStartPrice : ℝ
  xrpStartPrice : ℝ
  startPrices : Asset → ℝ
  startTimeBTC : ℝ
  startTimeETH : ℝ
  startTimeSOL : ℝ
  startTimeXRP : ℝ
  gbm : Asset → GBMState

/-- `handlePrice(symbol, price)` (src/priceSources/bitfinexPerp.ts,
lines 164–208): store the latest price, feed the venue's GBM model for
that asset, and on the first tick after a window start record the
start price.  The SOL branch reproduces the source exactly, including
its write to `bitfinexStartPrices.XRP`; the XRP branch, as in the
source, updates no `startPrices` entry. -/
noncomputable def handlePrice (now : Int) (symbol : Asset) (price : ℝ)
    (st : BitfinexPerpState) : BitfinexPerpState :=
  match symbol with
  | Asset.BTC =>
    let st1 := { st with
      btcPrice := price,
      gbm := fun a =>
        if a = Asset.BTC then addPrice now price (st.gbm a) else st.gbm a }
    if st.btcStartPrice = 0 ∧ 0 < st.startTimeBTC then
      { st1 with
        btcStartPrice := price,
        startPrices := fun a =>
          if a = Asset.BTC then price else st1.startPrices a }
    else st1
  | Asset.ETH =>
    let st1 := { st with
      ethPrice := price,
      gbm := fun a =>
        if a = Asset.ETH then addPrice now price (st.gbm a) else st.gbm a }
    if st.ethStartPrice = 0 ∧ 0 < st.startTimeETH then
      { st1 with
        ethStartPrice := price,
        startPrices := fun a =>
          if a = Asset.ETH then price else st1.startPrices a }
    else st1
  | Asset.SOL =>
    let st1 := { st with
      solPrice := price,
      gbm := fun a =>
        if a = Asset.SOL then addPrice now price (st.gbm a) else st.gbm a }
    if st.solStartPrice = 0 ∧ 0 < st.startTimeSOL then
      { st1 with
        solStartPrice := price,
        startPrices := fun a =>
          if a = Asset.SOL then price
          else if a = Asset.XRP then price
          else st1.startPrices a }
    else st1
  | Asset.XRP =>
    let st1 := { st with
      xrpPrice := price,
      gbm := fun a =>
        if a = Asset.XRP then addPrice now price (st.gbm a) else st.gbm a }
    if st.xrpStartPrice = 0 ∧ 0 < st.startTimeXRP then
      { st1 with xrpStartPrice := price }
    else st1

/-- A pre-rollover Bitfinex state: no start prices recorded except a
previously stored XRP entry of 42, all window start times set. -/
noncomputable def bitfinexDemoInit : BitfinexPerpState :=
  { btcPrice := 0, ethPrice := 0, solPrice := 0, xrpPrice := 0,
    btcStartPrice := 0, ethStartPrice := 0, solStartPrice := 0,
    xrpStartPrice := 0,
    startPrices := fun a => if a = Asset.XRP then 42 else 0,
    startTimeBTC := 1, startTimeETH := 1, startTimeSOL := 1,
    startTimeXRP := 1,
    gbm := fun _ => freshGBM }

end PolyBot

namespace PolyBot

/-- C1: for positive prices and positive minutes remaining, `calculate`
returns a pair with `UP + DOWN = 1` and both components in
`[0.001, 0.999]`. -/
theorem calculate_sum_one_and_bounded (s : GBMState)
    (currentPrice startPrice minutesRemaining : ℝ)
    (hc : 0 < currentPrice) (hs : 0 < startPrice) (hm : 0 < minutesRemaining) :
    (calculate s currentPrice startPrice minutesRemaining).2.1 +
        (calculate s currentPrice startPrice minutesRemaining).2.2 = 1 ∧
      0.001 ≤ (calculate s currentPrice startPrice minutesRemaining).2.1 ∧
      (calculate s currentPrice startPrice minutesRemaining).2.1 ≤ 0.999 ∧
      0.001 ≤ (calculate s currentPrice startPrice minutesRemaining).2.2 ∧
      (calculate s currentPrice startPrice minutesRemaining).2.2 ≤ 0.999 := by
  have hcond : ¬(minutesRemaining ≤ 0 ∨ currentPrice ≤ 0 ∨ startPrice ≤ 0) := by
    push_neg
    exact ⟨hm, hc, hs⟩
  unfold calculate
  rw [if_neg hcond]
  dsimp only
  set v := normCDF (Real.log (currentPrice / startPrice) /
    (max (estimateVolatilityPerMinute s)
      (0.001 / max 0.1 (Real.sqrt minutesRemaining)) *
      Real.sqrt minutesRemaining)) with hv
  have h1 : (0.001 : ℝ) ≤ max 0.001 (min 0.999 v) := le_max_left _ _
  have h2 : max (0.001 : ℝ) (min 0.999 v) ≤ 0.999 := by
    apply max_le
    · norm_num
    · exact min_le_left _ _
  refine ⟨by ring, h1, h2, by linarith, by linarith⟩

/-- Witness for `calculate_sum_one_and_bounded` at
`currentPrice = 2`, `startPrice = 1`, `minutesRemaining = 5` on a
fresh model. -/
theorem calculate_sum_one_and_bounded_witness :
    (0 : ℝ) < 2 ∧
      ((calculate freshGBM 2 1 5).2.1 + (calculate freshGBM 2 1 5).2.2 = 1 ∧
        0.001 ≤ (calculate freshGBM 2 1 5).2.1 ∧
        (calculate freshGBM 2 1 5).2.1 ≤ 0.999 ∧
        0.001 ≤ (calculate freshGBM 2 1 5).2.2 ∧
        (calculate freshGBM 2 1 5).2.2 ≤ 0.999) :=
  ⟨by norm_num,
    calculate_sum_one_and_bounded freshGBM 2 1 5 (by norm_num) (by norm_num)
      (by norm_num)⟩

/-- Pruning only removes entries: every survivor was in the source list. -/
theorem mem_of_mem_pruneOld {c : Int} {l : List (Int × ℝ)} {x : Int × ℝ}
    (hx : x ∈ pruneOld c l) : x ∈ l := by
  induction l with
  | nil => simpa [pruneOld] using hx
  | cons a as ih =>
    by_cases h : a.1 < c
    · simp only [pruneOld, if_pos h] at hx
      exact List.mem_cons_of_mem _ (ih hx)
    · simpa [pruneOld, if_neg h] using hx

/-- One `addPrice` call at the constant price `p` preserves the
invariant "zero EWMA variance and every stored price equals `p`". -/
theorem addPrice_const_inv {p : ℝ} {s : GBMState} (now : Int) (hp : 0 < p)
    (h0 : s.ewmaVariance = 0) (hall : ∀ x ∈ s.history, x.2 = p) :
    (addPrice now p s).ewmaVariance = 0 ∧
      ∀ x ∈ (addPrice now p s).history, x.2 = p := by
  have hallPushed : ∀ x ∈ s.history ++ [(now, p)], x.2 = p := by
    intro x hx
    rcases List.mem_append.mp hx with h | h
    · exact hall x h
    · simp only [List.mem_singleton] at h
      rw [h]
  have hallPruned :
      ∀ x ∈ pruneOld (now - 60 * 1000) (s.history ++ [(now, p)]), x.2 = p :=
    fun x hx => hallPushed x (mem_of_mem_pruneOld hx)
  unfold addPrice
  dsimp only
  refine ⟨?_, hallPruned⟩
  set pruned := pruneOld (now - 60 * 1000) (s.history ++ [(now, p)]) with hpr
  by_cases hlen : 1 < pruned.length
  · rw [if_pos hlen]
    cases hget : pruned.get? (pruned.length - 2) with
    | none =>
      norm_num [h0]
    | some y =>
      have hy : y ∈ pruned := List.get?_mem hget
      have hyp : y.2 = p := hallPruned y hy
      simp only [Option.getD_some]
      rw [hyp, if_pos ⟨hp, hp⟩, div_self (ne_of_gt hp), Real.log_one, h0]
      ring
  · rw [if_neg hlen]
    exact h0

/-- Any number of `addPrice` calls at the constant price `p` preserve
the invariant of `addPrice_const_inv`. -/
theorem addPrices_const_inv {p : ℝ} (tss : List Int) {s : GBMState} (hp : 0 < p)
    (h0 : s.ewmaVariance = 0) (hall : ∀ x ∈ s.history, x.2 = p) :
    (addPrices tss p s).ewmaVariance = 0 ∧
      ∀ x ∈ (addPrices tss p s).history, x.2 = p := by
  induction tss generalizing s with
  | nil => exact ⟨h0, hall⟩
  | cons t ts ih =>
    have h := addPrice_const_inv t hp h0 hall
    exact ih h.1 h.2

/-- `addPrice` never changes the configured volatility floor. -/
theorem addPrices_sigma_floor (tss : List Int) (p : ℝ) (s : GBMState) :
    (addPrices tss p s).MIN_SIGMA_PER_MIN = s.MIN_SIGMA_PER_MIN := by
  induction tss generalizing s with
  | nil => rfl
  | cons t ts ih => exact (ih (addPrice t p s)).trans rfl

/-- C8: feeding any number N ≥ 1 of identical positive prices into a
fresh model leaves `ewmaVariance` exactly 0, so
`estimateVolatilityPerMinute()` returns exactly the configured
`MIN_SIGMA_PER_MIN`. -/
theorem constant_price_gives_sigma_floor (tss : List Int) (p : ℝ)
    (hne : tss ≠ []) (hp : 0 < p) :
    (addPrices tss p freshGBM).ewmaVariance = 0 ∧
      estimateVolatilityPerMinute (addPrices tss p freshGBM) =
        freshGBM.MIN_SIGMA_PER_MIN := by
  have hall : ∀ x ∈ freshGBM.history, x.2 = p := by
    intro x hx
    exact absurd hx (by simp [freshGBM])
  have h := addPrices_const_inv tss hp rfl hall
  refine ⟨h.1, ?_⟩
  unfold estimateVolatilityPerMinute
  rw [if_pos h.1, addPrices_sigma_floor]

/-- Witness for `constant_price_gives_sigma_floor` with three ticks of
price 7. -/
theorem constant_price_gives_sigma_floor_witness :
    (([0, 500, 1000] : List Int) ≠ [] ∧ (0 : ℝ) < 7) ∧
      ((addPrices [0, 500, 1000] 7 freshGBM).ewmaVariance = 0 ∧
        estimateVolatilityPerMinute (addPrices [0, 500, 1000] 7 freshGBM) =
          freshGBM.MIN_SIGMA_PER_MIN) :=
  ⟨⟨by simp, by norm_num⟩,
    constant_price_gives_sigma_floor [0, 500, 1000] 7 (by simp) (by norm_num)⟩

/-- At argument 0 the Abramowitz–Stegun approximation does not return
exactly 1/2: the polynomial at `t = 1` sums to 1.26551226 while the
exponent subtracts 1.26551223, so the computed value is
`(2 - exp(3·10⁻⁸)) / 2`. -/
theorem normCDF_zero : normCDF 0 = (2 - Real.exp 0.00000003) / 2 := by
  unfold normCDF
  rw [zero_mul]
  rw [if_neg (by norm_num), if_neg (by norm_num)]
  norm_num
  ring

/-- The residual exponential factor exceeds 1. -/
theorem one_lt_exp_eps : 1 < Real.exp 0.00000003 :=
  Real.one_lt_exp_iff.mpr (by norm_num)

/-- The residual exponential factor is below 1.0000001. -/
theorem exp_eps_lt : Real.exp 0.00000003 < 1.0000001 := by
  have h1 : 1 - 0.00000003 ≤ Real.exp (-0.00000003) := by
    have h := Real.add_one_le_exp (-0.00000003 : ℝ)
    linarith
  have h2 : Real.exp 0.00000003 * Real.exp (-0.00000003) = 1 := by
    rw [← Real.exp_add]
    norm_num
  nlinarith [Real.exp_pos (0.00000003 : ℝ), Real.exp_pos (-0.00000003 : ℝ)]

/-- `normCDF 0` lies strictly below 1/2. -/
theorem normCDF_zero_lt_half : normCDF 0 < 1 / 2 := by
  rw [normCDF_zero]
  have := one_lt_exp_eps
  linarith

/-- `normCDF 0` lies strictly above 0.4999999. -/
theorem normCDF_zero_gt : (0.4999999 : ℝ) < normCDF 0 := by
  rw [normCDF_zero]
  have := exp_eps_lt
  norm_num
  linarith

/-- With equal positive prices and positive minutes remaining, the CDF
argument is 0 and the clamp does not bind, so `calculate` returns
exactly `normCDF 0`. -/
theorem calculate_equal_prices_eq_normCDF_zero (s : GBMState)
    (price minutesRemaining : ℝ) (hp : 0 < price) (hm : 0 < minutesRemaining) :
    (calculate s price price minutesRemaining).2.1 = normCDF 0 := by
  have hcond : ¬(minutesRemaining ≤ 0 ∨ price ≤ 0 ∨ price ≤ 0) := by
    push_neg
    exact ⟨hm, hp, hp⟩
  unfold calculate
  rw [if_neg hcond]
  dsimp only
  rw [div_self (ne_of_gt hp), Real.log_one, zero_div]
  have hlo := normCDF_zero_gt
  have hhi := normCDF_zero_lt_half
  rw [min_eq_right (by norm_num; linarith), max_eq_right (by norm_num; linarith)]

/-- C7 (corrected): with `currentPrice = startPrice > 0` and positive
minutes remaining, the CDF argument is 0, but the published UP equals
`normCDF 0`, which is strictly below 0.5 and within 10⁻⁷ of it — not
exactly 0.5. -/
theorem calculate_equal_prices_near_half (s : GBMState)
    (price minutesRemaining : ℝ) (hp : 0 < price) (hm : 0 < minutesRemaining) :
    (calculate s price price minutesRemaining).2.1 = normCDF 0 ∧
      normCDF 0 < 1 / 2 ∧ 1 / 2 - normCDF 0 < 1 / 10000000 := by
  refine ⟨calculate_equal_prices_eq_normCDF_zero s price minutesRemaining hp hm,
    normCDF_zero_lt_half, ?_⟩
  have := normCDF_zero_gt
  norm_num
  linarith

/-- Witness for `calculate_equal_prices_near_half` at price 1,
one minute remaining, on a fresh model. -/
theorem calculate_equal_prices_near_half_witness :
    ((0 : ℝ) < 1 ∧ (0 : ℝ) < 1) ∧
      ((calculate freshGBM 1 1 1).2.1 = normCDF 0 ∧
        normCDF 0 < 1 / 2 ∧ 1 / 2 - normCDF 0 < 1 / 10000000) :=
  ⟨⟨by norm_num, by norm_num⟩,
    calculate_equal_prices_near_half freshGBM 1 1 (by norm_num) (by norm_num)⟩

/-- Counterexample to C7 as stated: with equal positive prices the
returned UP is not exactly 0.5. -/
theorem calculate_equal_prices_not_half :
    (calculate freshGBM 1 1 1).2.1 ≠ 0.5 := by
  rw [calculate_equal_prices_eq_normCDF_zero freshGBM 1 1 (by norm_num)
    (by norm_num)]
  have := normCDF_zero_lt_half
  norm_num
  linarith

/-- C2: when the fair computation yields NaN for UP and the hybrid
update runs (all guards pass), the published UP is the order-book UP
mid when nonzero, otherwise 0.5, and DOWN is its complement. -/
theorem updateHybridFair_nan_fallback
    (currentPrice startPrice marketStartTime now : ℚ)
    (basisEntry : Option JsNum) (polyUp polyDown : ℚ) (prev : ℚ × ℚ)
    (hc : 0 < currentPrice) (hs : 0 < startPrice)
    (hmt : 0 < marketStartTime)
    (hmins : 0 < (marketStartTime + 900000 - now) / 60000)
    (hpu : 0 < polyUp) (hpd : 0 < polyDown) :
    (updateHybridFair currentPrice startPrice marketStartTime now none
          basisEntry polyUp polyDown prev).1 =
        (if polyUp ≠ 0 then polyUp else 1 / 2) ∧
      (updateHybridFair currentPrice startPrice marketStartTime now none
          basisEntry polyUp polyDown prev).2 =
        1 - (updateHybridFair currentPrice startPrice marketStartTime now none
          basisEntry polyUp polyDown prev).1 := by
  have h1 : ¬(currentPrice ≤ 0 ∨ startPrice ≤ 0 ∨ marketStartTime ≤ 0) := by
    push_neg
    exact ⟨hc, hs, hmt⟩
  have h2 : ¬((marketStartTime + 900000 - now) / 60000 ≤ 0) :=
    not_le.mpr hmins
  have h3 : ¬(polyUp ≤ 0 ∨ polyDown ≤ 0) := by
    push_neg
    exact ⟨hpu, hpd⟩
  unfold updateHybridFair
  rw [if_neg h1, if_neg h2, if_neg h3]
  simp only [jadd, jmin, jmax]
  rw [if_neg hpu.ne', if_pos hpu.ne']
  exact ⟨rfl, trivial⟩

/-- Witness for `updateHybridFair_nan_fallback` with a NaN GBM
probability and a 0.6 book mid. -/
theorem updateHybridFair_nan_fallback_witness :
    ((0 : ℚ) < 1 ∧ (0 : ℚ) < ((1 : ℚ) + 900000 - 0) / 60000 ∧
        (0 : ℚ) < 0.6 ∧ (0 : ℚ) < 0.4) ∧
      ((updateHybridFair 1 1 1 0 none none 0.6 0.4 (1 / 2, 1 / 2)).1 =
          (if (0.6 : ℚ) ≠ 0 then 0.6 else 1 / 2) ∧
        (updateHybridFair 1 1 1 0 none none 0.6 0.4 (1 / 2, 1 / 2)).2 =
          1 - (updateHybridFair 1 1 1 0 none none 0.6 0.4 (1 / 2, 1 / 2)).1) :=
  ⟨⟨by norm_num, by norm_num, by norm_num, by norm_num⟩,
    updateHybridFair_nan_fallback 1 1 1 0 none 0.6 0.4 (1 / 2, 1 / 2)
      (by norm_num) (by norm_num) (by norm_num) (by norm_num) (by norm_num)
      (by norm_num)⟩

/-- Counterexample to C3 as stated: with no valid per-venue values and
an order-book mid of 0.9995 the combined fair returns 0.9995, which
lies outside [0.001, 0.999]. -/
theorem getCombinedExchangeFair_unclamped :
    getCombinedExchangeFair Exchange.BINANCE [] 0.9995 = 0.9995 ∧
      ¬((0.9995 : ℚ) ≤ 0.999) := by
  constructor
  · norm_num [getCombinedExchangeFair, combinedValues]
  · norm_num

/-- C3 (corrected): `getCombinedExchangeFair` averages the surviving
values and clamps to [0.001, 0.999] only when survivors exist and the
mid is positive; with no survivors it returns the mid when nonzero
(else 0.5) unclamped, and with survivors but a non-positive mid it
returns the raw average unclamped. -/
theorem getCombinedExchangeFair_characterization (anchor : Exchange)
    (fbe : List (Exchange × ℚ)) (polyMid : ℚ) :
    (combinedValues anchor fbe = [] →
        getCombinedExchangeFair anchor fbe polyMid =
          (if polyMid = 0 then 1 / 2 else polyMid)) ∧
      (combinedValues anchor fbe ≠ [] → polyMid ≤ 0 →
        getCombinedExchangeFair anchor fbe polyMid =
          (combinedValues anchor fbe).sum /
            ((combinedValues anchor fbe).length : ℚ)) ∧
      (combinedValues anchor fbe ≠ [] → 0 < polyMid →
        getCombinedExchangeFair anchor fbe polyMid =
            max 0.001 (min 0.999 ((combinedValues anchor fbe).sum /
              ((combinedValues anchor fbe).length : ℚ))) ∧
          0.001 ≤ getCombinedExchangeFair anchor fbe polyMid ∧
          getCombinedExchangeFair anchor fbe polyMid ≤ 0.999) := by
  unfold getCombinedExchangeFair
  refine ⟨?_, ?_, ?_⟩
  · intro hempty
    rw [hempty]
    simp
  · intro hne hle
    rw [if_neg (by simpa [List.length_eq_zero] using hne),
      if_pos (Or.inr hle)]
  · intro hne hpos
    have hcond : ¬(polyMid = 0 ∨ polyMid ≤ 0) := by
      push_neg
      exact ⟨ne_of_gt hpos, hpos⟩
    rw [if_neg (by simpa [List.length_eq_zero] using hne), if_neg hcond]
    refine ⟨rfl, le_max_left _ _, ?_⟩
    apply max_le
    · norm_num
    · exact min_le_left _ _

/-- Witness for `getCombinedExchangeFair_characterization`: one
surviving GATE value of 0.6 with a positive mid gives the clamped
average 0.6. -/
theorem getCombinedExchangeFair_characterization_witness :
    (combinedValues Exchange.BINANCE [(Exchange.GATE, 0.6)] ≠ [] ∧
        (0 : ℚ) < 0.5) ∧
      (getCombinedExchangeFair Exchange.BINANCE [(Exchange.GATE, 0.6)] 0.5 =
          max 0.001 (min 0.999
            ((combinedValues Exchange.BINANCE [(Exchange.GATE, 0.6)]).sum /
              ((combinedValues Exchange.BINANCE
                [(Exchange.GATE, 0.6)]).length : ℚ))) ∧
        0.001 ≤ getCombinedExchangeFair Exchange.BINANCE
          [(Exchange.GATE, 0.6)] 0.5 ∧
        getCombinedExchangeFair Exchange.BINANCE [(Exchange.GATE, 0.6)] 0.5 ≤
          0.999) :=
  ⟨⟨by simp [combinedValues]; norm_num, by norm_num⟩,
    (getCombinedExchangeFair_characterization Exchange.BINANCE
        [(Exchange.GATE, 0.6)] 0.5).2.2
      (by simp [combinedValues]; norm_num) (by norm_num)⟩

/-- C4 (corrected): on a calm recompute step with a positive mid and an
initialized offset: convergence (`diff < 0.005` or `rawDiff < 0.005`)
snaps the offset and clears the latch; on divergence with the latch
unset the latch is set to `now` and the offset is kept; on divergence
with the latch set the offset is force-snapped exactly when the
continuously-diverged time strictly exceeds 3000 ms, and kept (with
the latch) when it is at most 3000 ms. -/
theorem basis_calibration_snap_timing (st : BasisState)
    (i : ExchangeTickInput) (b : ℚ)
    (hc : 0 < i.currentPrice) (hs : 0 < i.startPrice)
    (hcalm : ¬(0.035 < |i.recentPct|)) (hpoly : 0 < i.polyUp)
    (hb : st.basis = some b) :
    ((|i.fairUp + b - i.polyUp| < 0.005 ∨ |i.fairUp - i.polyUp| < 0.005) →
        (updateExchangeFairStep st i).1.basis = some (i.polyUp - i.fairUp) ∧
          (updateExchangeFairStep st i).1.latchStart = 0) ∧
      (¬(|i.fairUp + b - i.polyUp| < 0.005 ∨
            |i.fairUp - i.polyUp| < 0.005) → st.latchStart = 0 →
        (updateExchangeFairStep st i).1.basis = some b ∧
          (updateExchangeFairStep st i).1.latchStart = i.now) ∧
      (¬(|i.fairUp + b - i.polyUp| < 0.005 ∨
            |i.fairUp - i.polyUp| < 0.005) → st.latchStart ≠ 0 →
        i.now - st.latchStart ≤ 3000 →
        (updateExchangeFairStep st i).1 = st) ∧
      (¬(|i.fairUp + b - i.polyUp| < 0.005 ∨
            |i.fairUp - i.polyUp| < 0.005) → st.latchStart ≠ 0 →
        3000 < i.now - st.latchStart →
        (updateExchangeFairStep st i).1.basis = some (i.polyUp - i.fairUp) ∧
          (updateExchangeFairStep st i).1.latchStart = 0) := by
  have hval : ¬(i.currentPrice ≤ 0 ∨ i.startPrice ≤ 0) := by
    push_neg
    exact ⟨hc, hs⟩
  unfold updateExchangeFairStep
  rw [if_neg hval]
  dsimp only
  rw [if_pos hpoly, hb]
  dsimp only
  rw [if_neg hcalm]
  refine ⟨?_, ?_, ?_, ?_⟩
  · intro hconv
    rw [if_pos hconv]
    exact ⟨rfl, rfl⟩
  · intro hdiv hl
    rw [if_neg hdiv, if_pos hl]
    have hnl : ¬((3000 : ℚ) < i.now - i.now) := by
      rw [sub_self]
      norm_num
    rw [if_neg hnl]
    exact ⟨rfl, rfl⟩
  · intro hdiv hl hle
    rw [if_neg hdiv, if_neg hl, if_neg (not_lt.mpr hle)]
    rw [← hb]
  · intro hdiv hl hgt
    rw [if_neg hdiv, if_neg hl, if_pos hgt]
    exact ⟨rfl, rfl⟩

/-- Witness for `basis_calibration_snap_timing`: the specification's
own example — `modelUp = 0.52`, `marketMid = 0.521`, so
`rawDiff = 0.001 < 0.005` — snaps the offset to 0.001 and clears the
latch. -/
theorem basis_calibration_snap_timing_witness :
    ((0 : ℚ) < 1 ∧ ¬((0.035 : ℚ) < |(0 : ℚ)|) ∧ (0 : ℚ) < 0.521 ∧
        (⟨some 0.001, 0⟩ : BasisState).basis = some 0.001 ∧
        |(0.52 : ℚ) - 0.521| < 0.005) ∧
      ((updateExchangeFairStep ⟨some 0.001, 0⟩
            ⟨1, 1, 0.52, 0.521, 0, 5000⟩).1.basis =
          some ((0.521 : ℚ) - 0.52) ∧
        (updateExchangeFairStep ⟨some 0.001, 0⟩
            ⟨1, 1, 0.52, 0.521, 0, 5000⟩).1.latchStart = 0) :=
  ⟨⟨by norm_num, by norm_num, by norm_num, rfl, by norm_num [abs_of_nonneg]⟩,
    (basis_calibration_snap_timing ⟨some 0.001, 0⟩
        ⟨1, 1, 0.52, 0.521, 0, 5000⟩ 0.001 (by norm_num) (by norm_num)
        (by norm_num) (by norm_num) rfl).1
      (Or.inr (by norm_num [abs_of_nonneg]))⟩

/-- Counterexample to C4 as stated: starting a divergence latch at
t = 1000 and re-evaluating at t = 4000 gives a continuously-diverged
time of exactly 3000 ms, yet the offset is not snapped (the code
requires strictly more than 3000 ms). -/
theorem basis_no_snap_at_exactly_3000 :
    (updateExchangeFairStep ⟨some 0.2, 0⟩ ⟨1, 1, 0.9, 0.5, 0, 1000⟩).1 =
        ⟨some 0.2, 1000⟩ ∧
      (updateExchangeFairStep ⟨some 0.2, 1000⟩ ⟨1, 1, 0.9, 0.5, 0, 4000⟩).1 =
        ⟨some 0.2, 1000⟩ ∧
      (4000 : ℚ) - 1000 = 3000 ∧ ((0.5 : ℚ) - 0.9 ≠ (0.2 : ℚ)) := by
  refine ⟨?_, ?_, by norm_num, by norm_num⟩
  · norm_num [updateExchangeFairStep, abs_of_nonneg]
  · norm_num [updateExchangeFairStep, abs_of_nonneg]

/-- A spike cycle freezes the stored offset and resets the latch to 0
exactly when the prices are valid and the mid is positive. -/
theorem spike_step_preserves (st : BasisState) (b : ℚ)
    (i : ExchangeTickInput) (hb : st.basis = some b)
    (hsp : 0.035 < |i.recentPct|) :
    (updateExchangeFairStep st i).1.basis = some b ∧
      (updateExchangeFairStep st i).1.latchStart =
        (if 0 < i.currentPrice ∧ 0 < i.startPrice ∧ 0 < i.polyUp then 0
          else st.latchStart) := by
  unfold updateExchangeFairStep
  by_cases hval : i.currentPrice ≤ 0 ∨ i.startPrice ≤ 0
  · rw [if_pos hval]
    have hcond : ¬(0 < i.currentPrice ∧ 0 < i.startPrice ∧ 0 < i.polyUp) := by
      rintro ⟨h1, h2, _⟩
      rcases hval with h | h
      · exact absurd h1 (not_lt.mpr h)
      · exact absurd h2 (not_lt.mpr h)
    rw [if_neg hcond]
    exact ⟨hb, rfl⟩
  · rw [if_neg hval]
    dsimp only
    push_neg at hval
    by_cases hpu : 0 < i.polyUp
    · rw [if_pos hpu, hb]
      dsimp only
      rw [if_pos hsp, if_pos ⟨hval.1, hval.2, hpu⟩]
      exact ⟨rfl, rfl⟩
    · rw [if_neg hpu,
        if_neg (by rintro ⟨_, _, h3⟩; exact hpu h3)]
      exact ⟨hb, rfl⟩

/-- Any number of consecutive spike cycles leave an initialized offset
unchanged. -/
theorem spike_run_preserves (L : List ExchangeTickInput) (st : BasisState)
    (b : ℚ) (hb : st.basis = some b)
    (hall : ∀ i ∈ L, 0.035 < |i.recentPct|) :
    (runCalibration st L).basis = some b := by
  induction L generalizing st with
  | nil => simpa [runCalibration] using hb
  | cons i is ih =>
    have h := (spike_step_preserves st b i hb (hall i (by simp))).1
    exact ih _ h fun j hj => hall j (by simp [hj])

/-- C5 (corrected): every sequence of spike cycles leaves an
initialized offset unchanged; on each such cycle the latch is reset
to 0 when the cycle's prices are valid and the market mid is
positive, and left untouched otherwise. -/
theorem spike_cycles_freeze_offset (st : BasisState) (b : ℚ)
    (L : List ExchangeTickInput) (hb : st.basis = some b)
    (hspike : ∀ i ∈ L, 0.035 < |i.recentPct|) :
    (runCalibration st L).basis = some b ∧
      ∀ (st2 : BasisState) (i : ExchangeTickInput), st2.basis = some b →
        0.035 < |i.recentPct| →
        (updateExchangeFairStep st2 i).1.basis = some b ∧
          (updateExchangeFairStep st2 i).1.latchStart =
            (if 0 < i.currentPrice ∧ 0 < i.startPrice ∧ 0 < i.polyUp then 0
              else st2.latchStart) :=
  ⟨spike_run_preserves L st b hb hspike,
    fun st2 i h1 h2 => spike_step_preserves st2 b i h1 h2⟩

/-- Witness for `spike_cycles_freeze_offset`: three consecutive spike
cycles on an initialized offset of 0.1. -/
theorem spike_cycles_freeze_offset_witness :
    ((⟨some 0.1, 77⟩ : BasisState).basis = some 0.1 ∧
        (∀ i ∈ ([⟨1, 1, 0.5, 0.6, 1, 1000⟩, ⟨1, 1, 0.5, 0.6, 1, 1100⟩,
            ⟨1, 1, 0.5, 0.6, 1, 1200⟩] : List ExchangeTickInput),
          (0.035 : ℚ) < |i.recentPct|)) ∧
      (runCalibration ⟨some 0.1, 77⟩
          [⟨1, 1, 0.5, 0.6, 1, 1000⟩, ⟨1, 1, 0.5, 0.6, 1, 1100⟩,
            ⟨1, 1, 0.5, 0.6, 1, 1200⟩]).basis = some 0.1 :=
  ⟨⟨rfl, by
      intro i hi
      simp only [List.mem_cons, List.not_mem_nil, or_false] at hi
      rcases hi with rfl | rfl | rfl <;> norm_num⟩,
    (spike_cycles_freeze_offset ⟨some 0.1, 77⟩ 0.1 _ rfl (by
      intro i hi
      simp only [List.mem_cons, List.not_mem_nil, or_false] at hi
      rcases hi with rfl | rfl | rfl <;> norm_num)).1⟩

/-- Counterexample to C5 as stated: a spike cycle with a zero market
mid leaves the latch at its previous nonzero value instead of
resetting it to 0 (the offset is still unchanged). -/
theorem spike_with_zero_mid_keeps_latch :
    (updateExchangeFairStep ⟨some 0.1, 500⟩ ⟨1, 1, 0.5, 0, 1, 9000⟩).1 =
        ⟨some 0.1, 500⟩ ∧ (500 : ℚ) ≠ 0 := by
  constructor
  · norm_num [updateExchangeFairStep, abs_of_nonneg]
  · norm_num

/-- C6: whenever some asset's window has expired, `checkMarketRollover`
runs the rollover and its final step resets every asset's published
fair pair to exactly {0.5, 0.5}. -/
theorem rollover_resets_fair_probs (now : ℚ) (anchor : Exchange)
    (finderStartTime finderStartPrice currentAnchorPrice : Asset → ℚ)
    (st : RolloverState)
    (h : ∃ a, 0 < st.startTimes a ∧ st.startTimes a + 900000 + 2000 < now) :
    ∀ a, (checkMarketRollover now anchor finderStartTime finderStartPrice
        currentAnchorPrice st).fairProbs a = (1 / 2, 1 / 2) := by
  obtain ⟨a, ha⟩ := h
  have hmem : a ∈ allAssets := by cases a <;> simp [allAssets]
  have hfil : a ∈ allAssets.filter fun b =>
      decide (0 < st.startTimes b ∧ st.startTimes b + 900000 + 2000 < now) :=
    List.mem_filter.mpr ⟨hmem, by simpa using ha⟩
  have hne : ¬((allAssets.filter fun b =>
      decide (0 < st.startTimes b ∧
        st.startTimes b + 900000 + 2000 < now)).isEmpty = true) := by
    intro h0
    rw [List.isEmpty_iff] at h0
    rw [h0] at hfil
    exact absurd hfil (List.not_mem_nil a)
  intro b
  unfold checkMarketRollover
  rw [if_neg hne]

/-- Witness for `rollover_resets_fair_probs`: all four windows started
at t = 1000 and it is now t = 903001, one millisecond past the grace
period; the published pair for BTC reads {0.5, 0.5} afterwards. -/
theorem rollover_resets_fair_probs_witness :
    (∃ a, 0 < (1000 : ℚ) ∧ (1000 : ℚ) + 900000 + 2000 < 903001 ∧ a = Asset.BTC) ∧
      ∀ a, (checkMarketRollover 903001 Exchange.BINANCE (fun _ => 0)
          (fun _ => 0) (fun _ => 0)
          ⟨fun _ => 1000, fun _ => 0, fun _ _ => 0,
            fun _ => (0.9, 0.1)⟩).fairProbs a = (1 / 2, 1 / 2) :=
  ⟨⟨Asset.BTC, by norm_num, by norm_num, rfl⟩,
    rollover_resets_fair_probs 903001 Exchange.BINANCE (fun _ => 0)
      (fun _ => 0) (fun _ => 0)
      ⟨fun _ => 1000, fun _ => 0, fun _ _ => 0, fun _ => (0.9, 0.1)⟩
      ⟨Asset.BTC, by norm_num, by norm_num⟩⟩

/-- Running a feed loop over `n` consecutive close events from counter
`c` ends at counter `c + n` and schedules the delays for attempts
`c+1, …, c+n` in order. -/
theorem feedRun_replicate (d : ℕ → ℕ) (c n : ℕ) :
    feedRun d c (List.replicate n FeedEvent.closed) =
      (c + n, (List.range n).map fun k => d (c + k + 1)) := by
  induction n generalizing c with
  | zero => simp [feedRun]
  | succ n ih =>
    rw [List.replicate_succ]
    show (feedRun d c (FeedEvent.closed :: List.replicate n FeedEvent.closed)) = _
    unfold feedRun feedStep
    dsimp only
    rw [ih (c + 1)]
    rw [List.range_succ_eq_map, List.map_cons, List.map_map]
    refine Prod.ext ?_ ?_
    · dsimp only
      omega
    · dsimp only [Option.toList_some, List.cons_append, List.nil_append]
      refine congrArg₂ List.cons (by norm_num) ?_
      apply List.map_congr_left
      intro k _
      simp only [Function.comp_apply]
      congr 1
      omega

/-- A successful open always resets the attempt counter to 0,
regardless of the history before it. -/
theorem feedRun_counter_after_open (d : ℕ → ℕ) (c : ℕ)
    (es : List FeedEvent) :
    (feedRun d c (es ++ [FeedEvent.opened])).1 = 0 := by
  induction es generalizing c with
  | nil => rfl
  | cons e t ih =>
    show (feedRun d c (e :: (t ++ [FeedEvent.opened]))).1 = 0
    unfold feedRun
    dsimp only
    exact ih _

/-- C9 (corrected): after a disconnect the n-th consecutive reconnect
attempt of every exchange feed is delayed `min(1000·n, 10000)` ms, but
the Polymarket order-book feed caps at 8000 ms instead of 10000 ms;
the attempt counter resets to 0 on every successful open. -/
theorem reconnect_backoff_caps :
    (∀ n : ℕ,
        (feedRun exchangeReconnectDelay 0
            (List.replicate n FeedEvent.closed)).2 =
          (List.range n).map fun k => min (1000 * (k + 1)) 10000) ∧
      (∀ n : ℕ,
        (feedRun polymarketReconnectDelay 0
            (List.replicate n FeedEvent.closed)).2 =
          (List.range n).map fun k => min (1000 * (k + 1)) 8000) ∧
      ∀ (d : ℕ → ℕ) (c : ℕ) (es : List FeedEvent),
        (feedRun d c (es ++ [FeedEvent.opened])).1 = 0 := by
  refine ⟨?_, ?_, fun d c es => feedRun_counter_after_open d c es⟩
  · intro n
    rw [feedRun_replicate]
    dsimp only
    apply List.map_congr_left
    intro k _
    unfold exchangeReconnectDelay
    congr 2
    omega
  · intro n
    rw [feedRun_replicate]
    dsimp only
    apply List.map_congr_left
    intro k _
    unfold polymarketReconnectDelay
    congr 2
    omega

/-- Counterexample to C9 as stated: on the 9th consecutive attempt the
order-book feed schedules 8000 ms where `min(1000·9, 10000)` would be
9000 ms. -/
theorem polymarket_backoff_cap_differs :
    polymarketReconnectDelay 9 = 8000 ∧ min (1000 * 9) 10000 = 9000 ∧
      (8000 : ℕ) ≠ 9000 := by decide

/-- C10: evaluating `handlePrice` at the failing input — a SOL trade
tick arriving while the SOL start price is unset and the SOL window is
active — overwrites the stored XRP start price of the same venue,
contradicting the per-asset frame property (the XRP branch of the
source never writes `bitfinexStartPrices.XRP`, so this line is a
misplaced copy). -/
theorem bitfinex_sol_tick_overwrites_xrp_start :
    bitfinexDemoInit.startPrices Asset.XRP = 42 ∧
      (handlePrice 0 Asset.SOL 100 bitfinexDemoInit).startPrices Asset.XRP =
        100 ∧
      (100 : ℝ) ≠ 42 := by
  refine ⟨by norm_num [bitfinexDemoInit], ?_, by norm_num⟩
  norm_num [handlePrice, bitfinexDemoInit]

end PolyBot
